import Mathlib

/-!
Shallow embedding of the note-judgment core of `src/note_plugin.rs`
(a lane-based rhythm game built on an ECS tick loop).

Times are modelled as exact rationals.  Entity tag components are
modelled as an explicit `judgment` field (`Pending` = neither
`IsEvaluable` nor `HitResult` attached; `Eligible` = `IsEvaluable`
attached; `Resolved r` = `HitResult` attached).  A Rust `panic!` is
modelled as `Option.none`.
-/

namespace BevyVsrg

/-- `HIT_MARGIN` constant from `note_plugin.rs` (0.15 seconds). -/
def HIT_MARGIN : ℚ := 15 / 100

/-- The four key codes bound to lanes in `hit_note`. -/
inductive KeyCode where
  | KeyD
  | KeyF
  | KeyJ
  | KeyK
deriving DecidableEq

/-- `NoteData` component: a beatmap entry not yet spawned. -/
structure NoteData where
  lane : Nat
  time : ℚ
deriving DecidableEq

/-- `Note` component on a spawned (live) note entity. -/
structure Note where
  lane : Nat
  time : ℚ
deriving DecidableEq

/-- `HitResult` component: the outcome attached on resolution. -/
structure HitResult where
  is_hit : Bool
  hit_time : ℚ
  offset : ℚ
deriving DecidableEq

/-- Judgment state of a live note, per the tag components of the source:
no tag = Pending, `IsEvaluable` = Eligible, `HitResult` = Resolved. -/
inductive Judgment where
  | Pending
  | Eligible
  | Resolved (result : HitResult)
deriving DecidableEq

/-- A live note entity: its `Note` data, its transform translation
(x, y), its `Visibility`, and its judgment state. -/
structure LiveNote where
  note : Note
  pos : ℚ × ℚ
  visible : Bool
  judgment : Judgment
deriving DecidableEq

/-- The per-tick key press-edge input (`ButtonInput::just_pressed`). -/
structure Input where
  pressed : List KeyCode
deriving DecidableEq

/-- `input.just_pressed(key_code)`. -/
def justPressed (input : Input) (k : KeyCode) : Bool :=
  input.pressed.contains k

/-- The beatmap spawned by `load_song`: `for i in 0..=23`,
`NoteData { lane: i % 4, time: 4. + i as f32 }`. -/
def loadSong : List NoteData :=
  (List.range 24).map (fun i => ⟨i % 4, 4 + (i : ℚ)⟩)

/-- `lane_width` in `load_song`. -/
def lane_width : ℚ := 50

/-- `lane_spacing` in `load_song`. -/
def lane_spacing : ℚ := 50

/-- The static lane set from `load_song`: `for i in 0..=3`, a `Lane(i)`
at translation `(i * (2*lane_width + lane_spacing), -500)`. -/
def lanes : List (Nat × ℚ × ℚ) :=
  (List.range 4).map
    (fun i => (i, (i : ℚ) * (2 * lane_width + lane_spacing), -500))

/-- The lane lookup in `move_notes_down`:
`query_lanes.iter().find(|(_, lane)| lane.0 == note.lane)`. -/
def findLane (lane : Nat) : Option (Nat × ℚ × ℚ) :=
  lanes.find? (fun l => l.1 == lane)

/-- The live note created by `spawn_notes_from_song` for one entry:
transform `(lane * 100, 1000)`, `Visibility::Visible`, no tags. -/
def mkLiveNote (nd : NoteData) : LiveNote :=
  { note := ⟨nd.lane, nd.time⟩
  , pos := ((nd.lane : ℚ) * 100, 1000)
  , visible := true
  , judgment := .Pending }

/-- The spawn condition in `spawn_notes_from_song`:
`note_data.time - 5. <= current_time`. -/
def spawnCond (t : ℚ) (nd : NoteData) : Bool :=
  nd.time - 5 ≤ t

/-- World state: unspawned `NoteData` entities and live note entities. -/
structure GameState where
  pending : List NoteData
  notes : List LiveNote
deriving DecidableEq

/-- `spawn_notes_from_song` over one tick at time `t`: every pending
entry satisfying the spawn condition becomes a live note and is
despawned from the pending set. -/
def spawnStep (t : ℚ) (s : GameState) : GameState :=
  { pending := s.pending.filter (fun nd => !spawnCond t nd)
  , notes := s.notes ++ (s.pending.filter (spawnCond t)).map mkLiveNote }

/-- `evaluate_notes` on one note: a note with neither `IsEvaluable` nor
`HitResult` gets `IsEvaluable` when `(note.time - t).abs() < HIT_MARGIN`. -/
def evaluateNote (t : ℚ) (n : LiveNote) : LiveNote :=
  match n.judgment with
  | .Pending =>
      if |n.note.time - t| < HIT_MARGIN then { n with judgment := .Eligible }
      else n
  | _ => n

/-- The lane-to-key mapping in `hit_note`; `none` models the
`panic!("Unexpected lane")` arm. -/
def laneKeyCode (lane : Nat) : Option KeyCode :=
  match lane with
  | 0 => some .KeyD
  | 1 => some .KeyF
  | 2 => some .KeyJ
  | 3 => some .KeyK
  | _ => none

/-- `hit_note` on one note carrying `IsEvaluable`: on that lane's key
press-edge, swap `IsEvaluable` for a hit `HitResult` and hide the note. -/
def hitNote (input : Input) (t : ℚ) (n : LiveNote) : Option LiveNote :=
  match n.judgment with
  | .Eligible =>
      match laneKeyCode n.note.lane with
      | none => none
      | some k =>
          if justPressed input k then
            some { n with
                   judgment := .Resolved ⟨true, t, t - n.note.time⟩
                 , visible := false }
          else some n
  | _ => some n

/-- `handle_missed_notes` on one note carrying `IsEvaluable`: when
`current_time > note.time + HIT_MARGIN`, swap `IsEvaluable` for a
miss `HitResult`. -/
def handleMissedNote (t : ℚ) (n : LiveNote) : LiveNote :=
  match n.judgment with
  | .Eligible =>
      if n.note.time + HIT_MARGIN < t then
        { n with judgment := .Resolved ⟨false, t, t - n.note.time⟩ }
      else n
  | _ => n

/-- `move_notes_down` on one note: anchor it to its lane's x and set
`y = anchor.y - (t - note.time) * 200`; `none` models the
`panic!("Note is in unexpected lane")` arm. -/
def moveNote (t : ℚ) (n : LiveNote) : Option LiveNote :=
  match findLane n.note.lane with
  | some (_, ax, ay) => some { n with pos := (ax, ay - (t - n.note.time) * 200) }
  | none => none

/-- `hit_note` iterated over the note query, propagating a panic. -/
def hitNotes (input : Input) (t : ℚ) : List LiveNote → Option (List LiveNote)
  | [] => some []
  | n :: rest => do
      let n' ← hitNote input t n
      let rest' ← hitNotes input t rest
      pure (n' :: rest')

/-- `move_notes_down` iterated over the note query, propagating a panic. -/
def moveNotes (t : ℚ) : List LiveNote → Option (List LiveNote)
  | [] => some []
  | n :: rest => do
      let n' ← moveNote t n
      let rest' ← moveNotes t rest
      pure (n' :: rest')

/-- The judgment chain `(evaluate_notes, hit_note, handle_missed_notes)
.chain()` applied to one note within one tick. -/
def judgeChainNote (input : Input) (t : ℚ) (n : LiveNote) : Option LiveNote :=
  (hitNote input t (evaluateNote t n)).map (handleMissedNote t)

/-- One `Update` tick: move and judge the existing live notes, then
apply the deferred spawn commands (notes spawned this tick join the
world at the end of the tick, after the judgment chain ran). -/
def tick (input : Input) (t : ℚ) (s : GameState) : Option GameState := do
  let moved ← moveNotes t s.notes
  let evaluated := moved.map (evaluateNote t)
  let hit ← hitNotes input t evaluated
  let missed := hit.map (handleMissedNote t)
  pure { pending := s.pending.filter (fun nd => !spawnCond t nd)
       , notes := missed ++ (s.pending.filter (spawnCond t)).map mkLiveNote }

/-- A sequence of ticks, each with its input edges and clock reading. -/
def runTicks : List (Input × ℚ) → GameState → Option GameState
  | [], s => some s
  | (input, t) :: rest, s => do
      let s' ← tick input t s
      runTicks rest s'

/-- The spawn system alone, iterated over a sequence of tick times. -/
def runSpawns : List ℚ → GameState → GameState
  | [], s => s
  | t :: rest, s => runSpawns rest (spawnStep t s)

/-- The world right after `load_song` ran at startup. -/
def initialState : GameState :=
  { pending := loadSong, notes := [] }

/-- How many unspawned copies of entry `nd` the state holds. -/
def countPending (nd : NoteData) (s : GameState) : Nat :=
  (s.pending.filter (fun x => x == nd)).length

/-- How many live notes of the state originate from entry `nd`. -/
def countNotes (nd : NoteData) (s : GameState) : Nat :=
  (s.notes.filter (fun n => n.note == (⟨nd.lane, nd.time⟩ : Note))).length

attribute [local semireducible] Rat.add Rat.sub Rat.mul Rat.inv Rat.ofScientific

theorem evaluateNote_pending {t : ℚ} {n : LiveNote} (h : n.judgment = .Pending) :
    evaluateNote t n =
      if |n.note.time - t| < HIT_MARGIN then { n with judgment := .Eligible }
      else n := by
  unfold evaluateNote
  rw [h]

theorem evaluateNote_eligible {t : ℚ} {n : LiveNote} (h : n.judgment = .Eligible) :
    evaluateNote t n = n := by
  unfold evaluateNote
  rw [h]

theorem evaluateNote_resolved {t : ℚ} {n : LiveNote} {r : HitResult}
    (h : n.judgment = .Resolved r) : evaluateNote t n = n := by
  unfold evaluateNote
  rw [h]

theorem hitNote_pending {input : Input} {t : ℚ} {n : LiveNote}
    (h : n.judgment = .Pending) : hitNote input t n = some n := by
  unfold hitNote
  rw [h]

theorem hitNote_resolved {input : Input} {t : ℚ} {n : LiveNote} {r : HitResult}
    (h : n.judgment = .Resolved r) : hitNote input t n = some n := by
  unfold hitNote
  rw [h]

theorem hitNote_eligible {input : Input} {t : ℚ} {n : LiveNote} {k : KeyCode}
    (h : n.judgment = .Eligible) (hk : laneKeyCode n.note.lane = some k) :
    hitNote input t n =
      if justPressed input k then
        some { n with judgment := .Resolved ⟨true, t, t - n.note.time⟩,
                      visible := false }
      else some n := by
  unfold hitNote
  rw [h, hk]

theorem handleMissedNote_pending {t : ℚ} {n : LiveNote}
    (h : n.judgment = .Pending) : handleMissedNote t n = n := by
  unfold handleMissedNote
  rw [h]

theorem handleMissedNote_resolved {t : ℚ} {n : LiveNote} {r : HitResult}
    (h : n.judgment = .Resolved r) : handleMissedNote t n = n := by
  unfold handleMissedNote
  rw [h]

theorem handleMissedNote_eligible {t : ℚ} {n : LiveNote}
    (h : n.judgment = .Eligible) :
    handleMissedNote t n =
      if n.note.time + HIT_MARGIN < t then
        { n with judgment := .Resolved ⟨false, t, t - n.note.time⟩ }
      else n := by
  unfold handleMissedNote
  rw [h]

/-- C1: a Pending note becomes Eligible at a tick with current time `t`
iff `|t - targetTime| < HIT_MARGIN`; outside that window it is left
untouched (hence stays Pending). -/
theorem eligibility_window (t : ℚ) (n : LiveNote) (h : n.judgment = .Pending) :
    ((evaluateNote t n).judgment = .Eligible ↔ |t - n.note.time| < HIT_MARGIN) ∧
    (¬ |t - n.note.time| < HIT_MARGIN → evaluateNote t n = n) := by
  rw [evaluateNote_pending h, abs_sub_comm t n.note.time]
  by_cases hc : |n.note.time - t| < HIT_MARGIN <;> simp [hc, h]

/-- Witness for C1 at `t = 9.9` on the spawned note `{lane 2, time 10}`. -/
theorem eligibility_window_witness :
    ((evaluateNote (99/10) (mkLiveNote ⟨2, 10⟩)).judgment = .Eligible ↔
      |(99/10 : ℚ) - (mkLiveNote ⟨2, 10⟩).note.time| < HIT_MARGIN) ∧
    (¬ |(99/10 : ℚ) - (mkLiveNote ⟨2, 10⟩).note.time| < HIT_MARGIN →
      evaluateNote (99/10) (mkLiveNote ⟨2, 10⟩) = mkLiveNote ⟨2, 10⟩) :=
  eligibility_window (99/10) (mkLiveNote ⟨2, 10⟩) rfl

/-- C2: the lane-key binding is `{0 ↦ D, 1 ↦ F, 2 ↦ J, 3 ↦ K}`; on an
Eligible note whose key's press-edge fired this tick, the hit resolver
resolves it as a hit `⟨true, t, t - targetTime⟩` and hides it; without
the edge the note is returned unchanged (still Eligible). -/
theorem hit_resolver_spec (input : Input) (t : ℚ) (n : LiveNote) (k : KeyCode)
    (he : n.judgment = .Eligible) (hk : laneKeyCode n.note.lane = some k) :
    (laneKeyCode 0 = some .KeyD ∧ laneKeyCode 1 = some .KeyF ∧
     laneKeyCode 2 = some .KeyJ ∧ laneKeyCode 3 = some .KeyK) ∧
    (justPressed input k = true →
      hitNote input t n =
        some { n with judgment := .Resolved ⟨true, t, t - n.note.time⟩,
                      visible := false }) ∧
    (justPressed input k = false → hitNote input t n = some n) := by
  refine ⟨⟨rfl, rfl, rfl, rfl⟩, ?_, ?_⟩ <;>
    intro hp <;> rw [hitNote_eligible he hk, hp] <;> simp

/-- Witness for C2: an Eligible lane-2 note with a `J` press-edge. -/
theorem hit_resolver_spec_witness :
    (laneKeyCode 0 = some .KeyD ∧ laneKeyCode 1 = some .KeyF ∧
     laneKeyCode 2 = some .KeyJ ∧ laneKeyCode 3 = some .KeyK) ∧
    (justPressed ⟨[.KeyJ]⟩ .KeyJ = true →
      hitNote ⟨[.KeyJ]⟩ (1005/100) (⟨⟨2, 10⟩, (0, 0), true, .Eligible⟩ : LiveNote) =
        some { (⟨⟨2, 10⟩, (0, 0), true, .Eligible⟩ : LiveNote) with
               judgment := .Resolved
                 ⟨true, 1005/100,
                  1005/100 - (⟨⟨2, 10⟩, (0, 0), true, .Eligible⟩ : LiveNote).note.time⟩,
               visible := false }) ∧
    (justPressed ⟨[.KeyJ]⟩ .KeyJ = false →
      hitNote ⟨[.KeyJ]⟩ (1005/100) (⟨⟨2, 10⟩, (0, 0), true, .Eligible⟩ : LiveNote) =
        some (⟨⟨2, 10⟩, (0, 0), true, .Eligible⟩ : LiveNote)) :=
  hit_resolver_spec ⟨[.KeyJ]⟩ (1005/100) ⟨⟨2, 10⟩, (0, 0), true, .Eligible⟩ .KeyJ rfl rfl

/-- C4: once a note is Resolved it is absorbing: the window tracker,
the hit resolver, the miss resolver and the whole per-tick judgment
chain leave it exactly as it is, for every tick time and every input. -/
theorem resolved_is_absorbing (input : Input) (t : ℚ) (n : LiveNote)
    (r : HitResult) (h : n.judgment = .Resolved r) :
    evaluateNote t n = n ∧ hitNote input t n = some n ∧
    handleMissedNote t n = n ∧ judgeChainNote input t n = some n := by
  refine ⟨evaluateNote_resolved h, hitNote_resolved h,
    handleMissedNote_resolved h, ?_⟩
  unfold judgeChainNote
  rw [evaluateNote_resolved h, hitNote_resolved h]
  simp [handleMissedNote_resolved h]

/-- Witness for C4: a resolved hit note is untouched by a later tick
that even carries its own key's press-edge. -/
theorem resolved_is_absorbing_witness :
    evaluateNote 11 (⟨⟨2, 10⟩, (0, 0), false, .Resolved ⟨true, 10, 0⟩⟩ : LiveNote) =
      (⟨⟨2, 10⟩, (0, 0), false, .Resolved ⟨true, 10, 0⟩⟩ : LiveNote) ∧
    hitNote ⟨[.KeyJ]⟩ 11 (⟨⟨2, 10⟩, (0, 0), false, .Resolved ⟨true, 10, 0⟩⟩ : LiveNote) =
      some (⟨⟨2, 10⟩, (0, 0), false, .Resolved ⟨true, 10, 0⟩⟩ : LiveNote) ∧
    handleMissedNote 11 (⟨⟨2, 10⟩, (0, 0), false, .Resolved ⟨true, 10, 0⟩⟩ : LiveNote) =
      (⟨⟨2, 10⟩, (0, 0), false, .Resolved ⟨true, 10, 0⟩⟩ : LiveNote) ∧
    judgeChainNote ⟨[.KeyJ]⟩ 11 (⟨⟨2, 10⟩, (0, 0), false, .Resolved ⟨true, 10, 0⟩⟩ : LiveNote) =
      some (⟨⟨2, 10⟩, (0, 0), false, .Resolved ⟨true, 10, 0⟩⟩ : LiveNote) :=
  resolved_is_absorbing ⟨[.KeyJ]⟩ 11 ⟨⟨2, 10⟩, (0, 0), false, .Resolved ⟨true, 10, 0⟩⟩
    ⟨true, 10, 0⟩ rfl

/-- C3: hit beats miss at the window boundary.  A note that is still
unresolved gets hit-resolved by a press-edge at `t = targetTime +
HIT_MARGIN - ε` (ε > 0, within the window), because the window tracker
and the hit resolver run before the miss resolver within the tick;
while a tick with no press-edge at `t = targetTime + HIT_MARGIN + ε`
miss-resolves an Eligible note. -/
theorem hit_precedence_boundary (n : LiveNote) (input : Input) (ε : ℚ)
    (hε : 0 < ε) :
    (ε < 2 * HIT_MARGIN → n.judgment = .Pending →
      ∀ k, laneKeyCode n.note.lane = some k → justPressed input k = true →
      judgeChainNote input (n.note.time + HIT_MARGIN - ε) n =
        some { n with
               judgment := .Resolved
                 ⟨true, n.note.time + HIT_MARGIN - ε,
                  n.note.time + HIT_MARGIN - ε - n.note.time⟩
             , visible := false }) ∧
    (n.judgment = .Eligible →
      ∀ k, laneKeyCode n.note.lane = some k → justPressed input k = false →
      judgeChainNote input (n.note.time + HIT_MARGIN + ε) n =
        some { n with
               judgment := .Resolved
                 ⟨false, n.note.time + HIT_MARGIN + ε,
                  n.note.time + HIT_MARGIN + ε - n.note.time⟩ }) := by
  constructor
  · intro hlt hp k hk hpress
    have hw : |n.note.time - (n.note.time + HIT_MARGIN - ε)| < HIT_MARGIN := by
      have h1 : n.note.time - (n.note.time + HIT_MARGIN - ε) = ε - HIT_MARGIN := by
        ring
      rw [h1, abs_lt]
      constructor <;> linarith
    have hm : ({ n with judgment := .Eligible } : LiveNote).judgment = .Eligible :=
      rfl
    unfold judgeChainNote
    rw [evaluateNote_pending hp, if_pos hw, hitNote_eligible hm hk, if_pos hpress]
    rw [Option.map_some']
    simp [handleMissedNote]
  · intro he k hk hnp
    unfold judgeChainNote
    rw [evaluateNote_eligible he, hitNote_eligible he hk,
      if_neg (by simp [hnp]), Option.map_some']
    rw [handleMissedNote_eligible he, if_pos (by linarith)]

/-- Witness for C3 with `targetTime = 10`, `ε = 1/100`: a `J` press-edge
at `t = 10 + HIT_MARGIN - 1/100` hit-resolves a Pending lane-2 note, and
a silent tick at `t = 10 + HIT_MARGIN + 1/100` miss-resolves an Eligible
lane-2 note. -/
theorem hit_precedence_boundary_witness :
    judgeChainNote ⟨[.KeyJ]⟩ ((10 : ℚ) + HIT_MARGIN - 1/100)
        (⟨⟨2, 10⟩, (0, 0), true, .Pending⟩ : LiveNote) =
      some { (⟨⟨2, 10⟩, (0, 0), true, .Pending⟩ : LiveNote) with
             judgment := .Resolved
               ⟨true, (10 : ℚ) + HIT_MARGIN - 1/100,
                (10 : ℚ) + HIT_MARGIN - 1/100 - 10⟩
           , visible := false } ∧
    judgeChainNote ⟨[]⟩ ((10 : ℚ) + HIT_MARGIN + 1/100)
        (⟨⟨2, 10⟩, (0, 0), true, .Eligible⟩ : LiveNote) =
      some { (⟨⟨2, 10⟩, (0, 0), true, .Eligible⟩ : LiveNote) with
             judgment := .Resolved
               ⟨false, (10 : ℚ) + HIT_MARGIN + 1/100,
                (10 : ℚ) + HIT_MARGIN + 1/100 - 10⟩ } :=
  ⟨(hit_precedence_boundary ⟨⟨2, 10⟩, (0, 0), true, .Pending⟩ ⟨[.KeyJ]⟩ (1/100)
      (by norm_num)).1 (by norm_num [HIT_MARGIN]) rfl .KeyJ rfl rfl,
   (hit_precedence_boundary ⟨⟨2, 10⟩, (0, 0), true, .Eligible⟩ ⟨[]⟩ (1/100)
      (by norm_num)).2 rfl .KeyJ rfl rfl⟩

theorem findLane_eq (l : Nat) (h : l < 4) :
    findLane l = some (l, (l : ℚ) * (2 * lane_width + lane_spacing), -500) := by
  interval_cases l <;> rfl

theorem moveNote_eq (t : ℚ) (n : LiveNote) (ax ay : ℚ)
    (hf : findLane n.note.lane = some (n.note.lane, ax, ay)) :
    moveNote t n = some { n with pos := (ax, ay - (t - n.note.time) * 200) } := by
  unfold moveNote
  rw [hf]

/-- C6: the motion updater anchors every note to its lane's x and sets
`y = anchorY - (t - targetTime) * 200`; hence `y` is strictly decreasing
in `t` and equals the anchor's y exactly when `t = targetTime` (and `x`
always equals the anchor's x). -/
theorem motion_updater_spec (t : ℚ) (n : LiveNote) (h : n.note.lane < 4) :
    ∃ ax ay, findLane n.note.lane = some (n.note.lane, ax, ay) ∧
      moveNote t n = some { n with pos := (ax, ay - (t - n.note.time) * 200) } ∧
      (∀ t₁ t₂ m₁ m₂, t₁ < t₂ → moveNote t₁ n = some m₁ →
        moveNote t₂ n = some m₂ → m₂.pos.2 < m₁.pos.2) ∧
      (∀ t' m, moveNote t' n = some m →
        m.pos.1 = ax ∧ (m.pos.2 = ay ↔ t' = n.note.time)) := by
  have hf := findLane_eq n.note.lane h
  refine ⟨(n.note.lane : ℚ) * (2 * lane_width + lane_spacing), -500, hf,
    moveNote_eq t n _ _ hf, ?_, ?_⟩
  · intro t₁ t₂ m₁ m₂ hlt h₁ h₂
    rw [moveNote_eq t₁ n _ _ hf] at h₁
    rw [moveNote_eq t₂ n _ _ hf] at h₂
    have e₁ : m₁.pos.2 = -500 - (t₁ - n.note.time) * 200 := by
      rw [← Option.some.inj h₁]
    have e₂ : m₂.pos.2 = -500 - (t₂ - n.note.time) * 200 := by
      rw [← Option.some.inj h₂]
    rw [e₁, e₂]
    nlinarith
  · intro t' m hm
    rw [moveNote_eq t' n _ _ hf] at hm
    have e₁ : m.pos.1 = (n.note.lane : ℚ) * (2 * lane_width + lane_spacing) := by
      rw [← Option.some.inj hm]
    have e₂ : m.pos.2 = -500 - (t' - n.note.time) * 200 := by
      rw [← Option.some.inj hm]
    refine ⟨e₁, ?_⟩
    rw [e₂]
    rw [sub_eq_self, mul_eq_zero, sub_eq_zero]
    constructor
    · rintro (h' | h')
      · exact h'
      · exact absurd h' (by norm_num)
    · intro h'
      exact Or.inl h'

/-- Witness for C6 on a lane-2 note with `targetTime = 10` at `t = 7`. -/
theorem motion_updater_spec_witness :
    ∃ ax ay,
      findLane (⟨⟨2, 10⟩, (0, 0), true, .Pending⟩ : LiveNote).note.lane =
        some ((⟨⟨2, 10⟩, (0, 0), true, .Pending⟩ : LiveNote).note.lane, ax, ay) ∧
      moveNote 7 (⟨⟨2, 10⟩, (0, 0), true, .Pending⟩ : LiveNote) =
        some { (⟨⟨2, 10⟩, (0, 0), true, .Pending⟩ : LiveNote) with
               pos := (ax, ay - ((7 : ℚ) -
                 (⟨⟨2, 10⟩, (0, 0), true, .Pending⟩ : LiveNote).note.time) * 200) } ∧
      (∀ t₁ t₂ m₁ m₂, t₁ < t₂ →
        moveNote t₁ (⟨⟨2, 10⟩, (0, 0), true, .Pending⟩ : LiveNote) = some m₁ →
        moveNote t₂ (⟨⟨2, 10⟩, (0, 0), true, .Pending⟩ : LiveNote) = some m₂ →
        m₂.pos.2 < m₁.pos.2) ∧
      (∀ t' m, moveNote t' (⟨⟨2, 10⟩, (0, 0), true, .Pending⟩ : LiveNote) = some m →
        m.pos.1 = ax ∧ (m.pos.2 = ay ↔
          t' = (⟨⟨2, 10⟩, (0, 0), true, .Pending⟩ : LiveNote).note.time)) :=
  motion_updater_spec 7 ⟨⟨2, 10⟩, (0, 0), true, .Pending⟩ (by norm_num)

theorem laneKeyCode_isSome (l : Nat) (h : l < 4) : (laneKeyCode l).isSome := by
  interval_cases l <;> rfl

/-- C8: every beatmap entry loaded by `load_song` has its lane in
`[0, 4)`, and for any live note with lane in `[0, 4)` the unknown-lane
panic arms of the hit resolver and the motion updater are unreachable
(both systems return `some`), the key lookup and the lane lookup both
succeeding. -/
theorem no_unknown_lane_panic :
    (∀ nd ∈ loadSong, nd.lane < 4) ∧
    (∀ n : LiveNote, n.note.lane < 4 →
      (laneKeyCode n.note.lane).isSome ∧ (findLane n.note.lane).isSome ∧
      (∀ input t, (hitNote input t n).isSome) ∧
      (∀ t, (moveNote t n).isSome)) := by
  constructor
  · decide
  · intro n h
    have hf := findLane_eq n.note.lane h
    refine ⟨laneKeyCode_isSome n.note.lane h, ?_, ?_, ?_⟩
    · rw [hf]
      rfl
    · intro input t
      cases hj : n.judgment with
      | Pending => rw [hitNote_pending hj]; rfl
      | Resolved r => rw [hitNote_resolved hj]; rfl
      | Eligible =>
          obtain ⟨k, hk⟩ := Option.isSome_iff_exists.mp
            (laneKeyCode_isSome n.note.lane h)
          rw [hitNote_eligible hj hk]
          by_cases hp : justPressed input k = true
          · rw [if_pos hp]; rfl
          · rw [if_neg hp]; rfl
    · intro t
      rw [moveNote_eq t n _ _ hf]
      rfl

/-- Witness for C8 on the first lane-2 beatmap entry's live note. -/
theorem no_unknown_lane_panic_witness :
    (laneKeyCode (mkLiveNote ⟨2, 10⟩).note.lane).isSome ∧
    (findLane (mkLiveNote ⟨2, 10⟩).note.lane).isSome ∧
    (∀ input t, (hitNote input t (mkLiveNote ⟨2, 10⟩)).isSome) ∧
    (∀ t, (moveNote t (mkLiveNote ⟨2, 10⟩)).isSome) :=
  no_unknown_lane_panic.2 (mkLiveNote ⟨2, 10⟩) (by decide)

/-- C9: the hit resolver iterates over every Eligible note; a single
press-edge resolves, as a hit, every note that is Eligible in that
key's lane this tick (it is not limited to one note per press). -/
theorem one_press_resolves_every_eligible (input : Input) (t : ℚ) :
    ∀ (ns ns' : List LiveNote), hitNotes input t ns = some ns' →
    ∀ n ∈ ns, n.judgment = .Eligible →
    ∀ k, laneKeyCode n.note.lane = some k → justPressed input k = true →
    ({ n with judgment := .Resolved ⟨true, t, t - n.note.time⟩,
              visible := false } : LiveNote) ∈ ns' := by
  intro ns
  induction ns with
  | nil =>
      intro ns' hrun n hn
      cases hn
  | cons a rest ih =>
      intro ns' hrun n hn he k hk hp
      simp only [hitNotes] at hrun
      cases ha : hitNote input t a with
      | none =>
          rw [ha] at hrun
          simp at hrun
      | some a' =>
          rw [ha] at hrun
          cases hr : hitNotes input t rest with
          | none =>
              rw [hr] at hrun
              simp at hrun
          | some rest' =>
              rw [hr] at hrun
              simp only [Option.bind_some, Option.bind_eq_bind] at hrun
              obtain rfl := (Option.some.inj hrun)
              rcases List.mem_cons.mp hn with rfl | hn'
              · rw [hitNote_eligible he hk, if_pos hp] at ha
                obtain rfl := Option.some.inj ha
                exact List.mem_cons_self _ _
              · exact List.mem_cons_of_mem _ (ih rest' hr n hn' he k hk hp)

/-- Witness for C9: two simultaneously Eligible lane-2 notes are both
resolved as hits by the single `J` press-edge of one tick. -/
theorem one_press_resolves_every_eligible_witness :
    ({ (⟨⟨2, 10⟩, (0, 0), true, .Eligible⟩ : LiveNote) with
       judgment := .Resolved
         ⟨true, 101/10, 101/10 - (⟨⟨2, 10⟩, (0, 0), true,
           .Eligible⟩ : LiveNote).note.time⟩,
       visible := false } : LiveNote) ∈
      [({ (⟨⟨2, 10⟩, (0, 0), true, .Eligible⟩ : LiveNote) with
          judgment := .Resolved ⟨true, 101/10, 1/10⟩, visible := false } : LiveNote),
       ({ (⟨⟨2, 101/10⟩, (0, 0), true, .Eligible⟩ : LiveNote) with
          judgment := .Resolved ⟨true, 101/10, 0⟩, visible := false } : LiveNote)] ∧
    ({ (⟨⟨2, 101/10⟩, (0, 0), true, .Eligible⟩ : LiveNote) with
       judgment := .Resolved
         ⟨true, 101/10, 101/10 - (⟨⟨2, 101/10⟩, (0, 0), true,
           .Eligible⟩ : LiveNote).note.time⟩,
       visible := false } : LiveNote) ∈
      [({ (⟨⟨2, 10⟩, (0, 0), true, .Eligible⟩ : LiveNote) with
          judgment := .Resolved ⟨true, 101/10, 1/10⟩, visible := false } : LiveNote),
       ({ (⟨⟨2, 101/10⟩, (0, 0), true, .Eligible⟩ : LiveNote) with
          judgment := .Resolved ⟨true, 101/10, 0⟩, visible := false } : LiveNote)] :=
  ⟨one_press_resolves_every_eligible ⟨[.KeyJ]⟩ (101/10)
      [⟨⟨2, 10⟩, (0, 0), true, .Eligible⟩, ⟨⟨2, 101/10⟩, (0, 0), true, .Eligible⟩]
      _ (by decide) _ (by decide) rfl .KeyJ rfl rfl,
   one_press_resolves_every_eligible ⟨[.KeyJ]⟩ (101/10)
      [⟨⟨2, 10⟩, (0, 0), true, .Eligible⟩, ⟨⟨2, 101/10⟩, (0, 0), true, .Eligible⟩]
      _ (by decide) _ (by decide) rfl .KeyJ rfl rfl⟩

/-- C10: a concrete execution in which a note becomes Eligible inside
its window (tick at t = 10.1, no press) and is then resolved as a hit
by a press-edge at t = 10.3 > targetTime + HIT_MARGIN, with offset
0.3 > HIT_MARGIN: the hit resolver runs before the miss resolver, so a
hit's offset is not bounded by HIT_MARGIN. -/
theorem late_press_still_hits :
    judgeChainNote ⟨[]⟩ (101/10) (mkLiveNote ⟨2, 10⟩) =
      some { mkLiveNote ⟨2, 10⟩ with judgment := .Eligible } ∧
    judgeChainNote ⟨[.KeyJ]⟩ (103/10)
        ({ mkLiveNote ⟨2, 10⟩ with judgment := .Eligible } : LiveNote) =
      some { mkLiveNote ⟨2, 10⟩ with
             judgment := .Resolved ⟨true, 103/10, 3/10⟩, visible := false } ∧
    (10 : ℚ) + HIT_MARGIN < 103/10 ∧ HIT_MARGIN < 3/10 := by
  refine ⟨by decide, by decide, by decide, by decide⟩

theorem mkLiveNote_note_beq (x nd : NoteData) :
    ((mkLiveNote x).note == (⟨nd.lane, nd.time⟩ : Note)) = (x == nd) := by
  have h1 : ((mkLiveNote x).note == (⟨nd.lane, nd.time⟩ : Note))
      = decide ((mkLiveNote x).note = ⟨nd.lane, nd.time⟩) := rfl
  have h2 : (x == nd) = decide (x = nd) := rfl
  rw [h1, h2, decide_eq_decide]
  cases x
  cases nd
  simp [mkLiveNote, Note.mk.injEq, NoteData.mk.injEq]

theorem length_filter_map_mkLiveNote (nd : NoteData) (m : List NoteData) :
    ((m.map mkLiveNote).filter
        (fun n => n.note == (⟨nd.lane, nd.time⟩ : Note))).length =
      (m.filter (fun x => x == nd)).length := by
  induction m with
  | nil => rfl
  | cons a m ih =>
      simp only [List.map_cons, List.filter_cons, mkLiveNote_note_beq]
      by_cases ha : (a == nd) = true
      · rw [if_pos ha, if_pos ha]
        simp [ih]
      · rw [if_neg ha, if_neg ha]
        exact ih

theorem length_filter_split (nd : NoteData) (p : NoteData → Bool)
    (l : List NoteData) :
    ((l.filter p).filter (fun x => x == nd)).length +
      ((l.filter (fun x => !p x)).filter (fun x => x == nd)).length =
      (l.filter (fun x => x == nd)).length := by
  induction l with
  | nil => rfl
  | cons a l ih =>
      by_cases hp : p a <;> by_cases ha : (a == nd) = true <;>
        simp [List.filter_cons, hp, ha] at ih ⊢ <;> omega

theorem spawnStep_sum (t : ℚ) (s : GameState) (nd : NoteData) :
    countNotes nd (spawnStep t s) + countPending nd (spawnStep t s) =
      countNotes nd s + countPending nd s := by
  unfold countNotes countPending spawnStep
  simp only [List.filter_append, List.length_append,
    length_filter_map_mkLiveNote]
  have := length_filter_split nd (spawnCond t) s.pending
  omega

theorem countPending_spawnStep_le (t : ℚ) (s : GameState) (nd : NoteData) :
    countPending nd (spawnStep t s) ≤ countPending nd s :=
  ((List.filter_sublist s.pending).filter _).length_le

theorem countPending_spawnStep_zero (t : ℚ) (s : GameState) (nd : NoteData)
    (hc : spawnCond t nd = true) : countPending nd (spawnStep t s) = 0 := by
  unfold countPending spawnStep
  rw [List.length_eq_zero, List.filter_eq_nil_iff]
  intro x hx hbeq
  have hx' : x ∈ List.filter (fun nd => !spawnCond t nd) s.pending := hx
  have hxp := (List.mem_filter.mp hx').2
  have hxnd : x = nd := of_decide_eq_true hbeq
  rw [hxnd, hc] at hxp
  exact Bool.false_ne_true hxp

theorem runSpawns_sum (ts : List ℚ) (s : GameState) (nd : NoteData) :
    countNotes nd (runSpawns ts s) + countPending nd (runSpawns ts s) =
      countNotes nd s + countPending nd s := by
  induction ts generalizing s with
  | nil => rfl
  | cons t ts ih =>
      show countNotes nd (runSpawns ts (spawnStep t s)) +
        countPending nd (runSpawns ts (spawnStep t s)) = _
      rw [ih (spawnStep t s), spawnStep_sum]

theorem runSpawns_pending_zero (ts : List ℚ) (s : GameState) (nd : NoteData)
    (h : countPending nd s = 0) : countPending nd (runSpawns ts s) = 0 := by
  induction ts generalizing s with
  | nil => exact h
  | cons t ts ih =>
      show countPending nd (runSpawns ts (spawnStep t s)) = 0
      exact ih (spawnStep t s)
        (Nat.le_zero.mp (h ▸ countPending_spawnStep_le t s nd))

theorem runSpawns_spawned_zero (ts : List ℚ) (s : GameState) (nd : NoteData)
    (h : ∃ t ∈ ts, spawnCond t nd = true) :
    countPending nd (runSpawns ts s) = 0 := by
  induction ts generalizing s with
  | nil =>
      obtain ⟨t, ht, _⟩ := h
      cases ht
  | cons u ts ih =>
      obtain ⟨t, ht, hct⟩ := h
      rcases List.mem_cons.mp ht with rfl | ht'
      · exact runSpawns_pending_zero ts (spawnStep t s) nd
          (countPending_spawnStep_zero t s nd hct)
      · exact ih (spawnStep u s) ⟨t, ht', hct⟩

/-- C5: an entry occurring once in the pending set spawns exactly one
live note (created Pending): over any sequence of ticks of the spawn
scheduler, the number of live notes from the entry plus its remaining
pending occurrences stays 1, and once some tick satisfies the spawn
condition `targetTime - 5 <= t` the entry is removed from the pending
set and exactly one live note from it exists, so later ticks can never
produce a second one. -/
theorem spawn_exactly_once (ts : List ℚ) (nd : NoteData)
    (h1 : countPending nd initialState = 1) :
    (mkLiveNote nd).judgment = .Pending ∧
    countNotes nd (runSpawns ts initialState) +
      countPending nd (runSpawns ts initialState) = 1 ∧
    ((∃ t ∈ ts, spawnCond t nd = true) →
      countPending nd (runSpawns ts initialState) = 0 ∧
      countNotes nd (runSpawns ts initialState) = 1) := by
  have hsum := runSpawns_sum ts initialState nd
  have hn0 : countNotes nd initialState = 0 := rfl
  refine ⟨rfl, by omega, fun hex => ?_⟩
  have hz := runSpawns_spawned_zero ts initialState nd hex
  exact ⟨hz, by omega⟩

/-- Witness for C5: the entry `{lane 2, time 10}` and the single tick
`t = 5` (the first time the spawn condition holds for it). -/
theorem spawn_exactly_once_witness :
    (mkLiveNote ⟨2, 10⟩).judgment = .Pending ∧
    countNotes ⟨2, 10⟩ (runSpawns [5] initialState) +
      countPending ⟨2, 10⟩ (runSpawns [5] initialState) = 1 ∧
    ((∃ t ∈ [(5 : ℚ)], spawnCond t ⟨2, 10⟩ = true) →
      countPending ⟨2, 10⟩ (runSpawns [5] initialState) = 0 ∧
      countNotes ⟨2, 10⟩ (runSpawns [5] initialState) = 1) :=
  spawn_exactly_once [5] ⟨2, 10⟩ (by decide)

/-- C7 counterexample: in the loaded song, run ticks at t = 5 and
t = 9.9 with no input.  The note of entry `{lane 2, targetTime 10}` is
then Eligible — not Pending as the scenario claims — because
`|9.9 - 10| = 0.1 < HIT_MARGIN` already holds at t = 9.9. -/
theorem scenario_not_pending_at_9_9 :
    (runTicks [(⟨[]⟩, 5), (⟨[]⟩, 99/10)] initialState).map
        (fun s => (s.notes.find? (fun n => n.note == (⟨2, 10⟩ : Note))).map
          LiveNote.judgment) = some (some .Eligible) ∧
    (runTicks [(⟨[]⟩, 5), (⟨[]⟩, 99/10)] initialState).map
        (fun s => (s.notes.find? (fun n => n.note == (⟨2, 10⟩ : Note))).map
          LiveNote.judgment) ≠ some (some .Pending) := by
  refine ⟨by decide, by decide⟩

/-- C7 (amended): end-to-end run of the loaded song for the entry
`{lane 2, targetTime 10}`.  No note exists yet at t = 4.99; the note
spawns at the t = 5 tick (Pending, at the spawn offset); it is still
Pending at t = 9.85; it is Eligible from t = 9.90001 through t = 10.15;
a `J` press-edge at t = 10.05 resolves it `⟨true, 10.05, 0.05⟩`; and
with no press at all it resolves `⟨false, 10.1501, 0.1501⟩` at
t = 10.1501. -/
theorem end_to_end_scenario :
    (runTicks [(⟨[]⟩, 499/100)] initialState).map
        (fun s => s.notes.find? (fun n => n.note == (⟨2, 10⟩ : Note))) =
      some none ∧
    (runTicks [(⟨[]⟩, 5)] initialState).map
        (fun s => s.notes.find? (fun n => n.note == (⟨2, 10⟩ : Note))) =
      some (some (mkLiveNote ⟨2, 10⟩)) ∧
    (runTicks [(⟨[]⟩, 5), (⟨[]⟩, 985/100)] initialState).map
        (fun s => (s.notes.find? (fun n => n.note == (⟨2, 10⟩ : Note))).map
          LiveNote.judgment) = some (some .Pending) ∧
    (runTicks [(⟨[]⟩, 5), (⟨[]⟩, 985/100), (⟨[]⟩, 990001/100000)]
        initialState).map
        (fun s => (s.notes.find? (fun n => n.note == (⟨2, 10⟩ : Note))).map
          LiveNote.judgment) = some (some .Eligible) ∧
    (runTicks [(⟨[]⟩, 5), (⟨[]⟩, 985/100), (⟨[]⟩, 990001/100000),
        (⟨[]⟩, 1015/100)] initialState).map
        (fun s => (s.notes.find? (fun n => n.note == (⟨2, 10⟩ : Note))).map
          LiveNote.judgment) = some (some .Eligible) ∧
    (runTicks [(⟨[]⟩, 5), (⟨[]⟩, 985/100), (⟨[]⟩, 990001/100000),
        (⟨[.KeyJ]⟩, 1005/100)] initialState).map
        (fun s => (s.notes.find? (fun n => n.note == (⟨2, 10⟩ : Note))).map
          LiveNote.judgment) =
      some (some (.Resolved ⟨true, 1005/100, 5/100⟩)) ∧
    (runTicks [(⟨[]⟩, 5), (⟨[]⟩, 99/10), (⟨[]⟩, 101501/10000)]
        initialState).map
        (fun s => (s.notes.find? (fun n => n.note == (⟨2, 10⟩ : Note))).map
          LiveNote.judgment) =
      some (some (.Resolved ⟨false, 101501/10000, 1501/10000⟩)) := by
  refine ⟨by decide, by decide, by decide, by decide, by decide, by decide,
    by decide⟩

end BevyVsrg
